import Mathlib

/-!
Verification development for a small leveled-logging package (Go, package
`logger`). The definitions below are a shallow embedding of `logger.go`:
pure Go functions become Lean functions; the process environment becomes an
explicit `String → String` map (Go `os.Getenv` returns `""` for unset
variables); the global registry becomes an explicit `RegistryState` value;
handler side effects (interface method calls) and process termination become
an explicit trace of `Event`s; Go interface type assertions on a handler
become Boolean capability flags on the `Handler` record.
-/

namespace Severino

/-- Go `type Level uint`, ordered severity. -/
abbrev Level := Nat

/-- Go `LevelNone Level = iota` (0). -/
def LevelNone : Level := 0

/-- Go `LevelError` (1). -/
def LevelError : Level := 1

/-- Go `LevelWarn` (2). -/
def LevelWarn : Level := 2

/-- Go `LevelInfo` (3). -/
def LevelInfo : Level := 3

/-- Go `LevelDebug` (4). -/
def LevelDebug : Level := 4

/-- A handler (Go: any value implementing `Interface`). The Boolean flags
model which of the optional capability interfaces (`InitInterface`,
`DebugInterface`, `InfoInterface`, `WarnInterface`, `ErrorInterface`,
`FatalInterface`) the concrete value implements; `id` identifies the
handler in the event trace. -/
structure Handler where
  id : Nat
  hasInit : Bool
  hasDebug : Bool
  hasInfo : Bool
  hasWarn : Bool
  hasError : Bool
  hasFatal : Bool
deriving DecidableEq

/-- Observable effects of the logger: capability-method invocations on a
handler (carrying the handler id and the arguments of the Go call), and
process termination (`os.Exit`). -/
inductive Event where
  | initCall (hid : Nat) (ns : String) (lv : Level)
  | debugCall (hid : Nat) (msg : String)
  | infoCall (hid : Nat) (msg : String)
  | warnCall (hid : Nat) (msg : String)
  | errorCall (hid : Nat) (msg : String)
  | fatalCall (hid : Nat) (msg : String)
  | exitCall (code : Nat)
deriving DecidableEq

/-- Go `Logger` struct: `Namespace string; Level Level; Handlers []Interface`. -/
structure Logger where
  Namespace : String
  Level : Level
  Handlers : List Handler
deriving DecidableEq

/-- ASCII case folding of one character (Go `strings.ToLower` acts
characterwise; only ASCII letters occur in the package's level names and
environment keys). -/
def asciiToLower (c : Char) : Char :=
  if 'A' ≤ c ∧ c ≤ 'Z' then Char.ofNat (c.toNat + 32) else c

/-- ASCII upper-casing of one character (Go `strings.ToUpper`). -/
def asciiToUpper (c : Char) : Char :=
  if 'a' ≤ c ∧ c ≤ 'z' then Char.ofNat (c.toNat - 32) else c

/-- Go `strings.ToLower`. -/
def toLowerStr (s : String) : String :=
  String.mk (s.data.map asciiToLower)

/-- Go `strings.ToUpper`. -/
def toUpperStr (s : String) : String :=
  String.mk (s.data.map asciiToUpper)

/-- Go `strings.Replace(s, old, new, -1)` for the single-character
patterns the package uses (`"-"` and `"."`): replaces every occurrence of
character `a` by `b`. -/
def replaceChar (s : String) (a b : Char) : String :=
  String.mk (s.data.map (fun c => if c = a then b else c))

/-- Go `strings.EqualFold` restricted to ASCII case folding, as used by
`GetLevelByString` on the fixed ASCII level names. -/
def EqualFold (a b : String) : Bool :=
  toLowerStr a == toLowerStr b

/-- Go `GetLevelByString`: case-insensitive chain over the five level
names, with `LevelInfo` as the final fallback. -/
def GetLevelByString (level : String) : Level :=
  if EqualFold level "debug" then LevelDebug
  else if EqualFold level "info" then LevelInfo
  else if EqualFold level "warn" then LevelWarn
  else if EqualFold level "error" then LevelError
  else if EqualFold level "none" then LevelNone
  else LevelInfo

/-- Go `getEnvVarLevel`: builds the per-namespace environment key, reads it,
falls back to the bare prefix variable when the value is empty, and
lowercases the result. `env` models `os.Getenv`; `pfx0` models the current
`defaultEnvironmentVariablePrefix`. -/
def getEnvVarLevel (env : String → String) (pfx0 ns : String) : String :=
  let pfx := if ns = "" then pfx0 else pfx0 ++ "_"
  let ns2 := if ns = "" then ns
             else replaceChar (replaceChar (toUpperStr ns) '-' '_') '.' '_'
  let level := env (pfx ++ ns2)
  let level2 := if level = "" then env pfx0 else level
  toLowerStr level2

/-- The environment key `getEnvVarLevel` reads first: `<PFX>` for the empty
namespace, otherwise `<PFX>_<NS>` with the namespace uppercased and `-`/`.`
mapped to `_`. -/
def envKey (pfx0 ns : String) : String :=
  if ns = "" then pfx0
  else pfx0 ++ "_" ++ replaceChar (replaceChar (toUpperStr ns) '-' '_') '.' '_'

/-- Modelled from the spec: `fmt.Sprintf` is the external Go formatting
library; only the `%s` verb (the one the package itself uses, in
`Logger.Write`) is modelled, substituting arguments left to right.
Characters not part of a `%s` verb pass through unchanged. -/
def sprintfCore : List Char → List String → List Char
  | [], _ => []
  | [c], _ => [c]
  | c1 :: c2 :: rest, args =>
    if c1 = '%' ∧ c2 = 's' ∧ args ≠ [] then
      (args.headD "").data ++ sprintfCore rest args.tail
    else
      c1 :: sprintfCore (c2 :: rest) args

/-- Modelled from the spec: printf-style substitution, see `sprintfCore`. -/
def Sprintf (format : String) (args : List String) : String :=
  String.mk (sprintfCore format.data args)

/-- Go `strings.TrimRight(s, "\n")`: removes all trailing newline
characters. -/
def trimRightNewline (s : String) : String :=
  String.mk ((s.data.reverse.dropWhile (fun c => c == '\n')).reverse)

/-- Go `Logger.AddHandler`: appends the handler and, when it implements the
Init capability, immediately invokes `Init` with the logger's current
namespace and level. Returns the updated logger and the event trace. -/
def Logger.AddHandler (l : Logger) (h : Handler) : Logger × List Event :=
  let l2 : Logger := { l with Handlers := l.Handlers ++ [h] }
  (l2, if h.hasInit then [Event.initCall h.id l2.Namespace l2.Level] else [])

/-- Go `Logger.SetLevel`: stores the level, then invokes `Init` with the
new level on every attached handler implementing the Init capability, in
order. -/
def Logger.SetLevel (l : Logger) (lv : Severino.Level) : Logger × List Event :=
  let l2 : Logger := { l with Level := lv }
  (l2, l2.Handlers.filterMap (fun h =>
    if h.hasInit then some (Event.initCall h.id l2.Namespace l2.Level) else none))

/-- Go `Logger.Debug`: no-op below `LevelDebug`; otherwise formats once and
fans out to the Debug-capable handlers in attachment order. -/
def Logger.Debug (l : Logger) (format : String) (v : List String) : List Event :=
  if l.Level < LevelDebug then []
  else
    let msg := Sprintf format v
    l.Handlers.filterMap (fun h =>
      if h.hasDebug then some (Event.debugCall h.id msg) else none)

/-- Go `Logger.Info`: no-op below `LevelInfo`; otherwise formats once and
fans out to the Info-capable handlers in attachment order. -/
def Logger.Info (l : Logger) (format : String) (v : List String) : List Event :=
  if l.Level < LevelInfo then []
  else
    let msg := Sprintf format v
    l.Handlers.filterMap (fun h =>
      if h.hasInfo then some (Event.infoCall h.id msg) else none)

/-- Go `Logger.Warn`: no-op below `LevelWarn`; otherwise formats once and
fans out to the Warn-capable handlers in attachment order. -/
def Logger.Warn (l : Logger) (format : String) (v : List String) : List Event :=
  if l.Level < LevelWarn then []
  else
    let msg := Sprintf format v
    l.Handlers.filterMap (fun h =>
      if h.hasWarn then some (Event.warnCall h.id msg) else none)

/-- Go `Logger.Error`: no-op below `LevelError`; otherwise formats once and
fans out to the Error-capable handlers in attachment order. -/
def Logger.Error (l : Logger) (format : String) (v : List String) : List Event :=
  if l.Level < LevelError then []
  else
    let msg := Sprintf format v
    l.Handlers.filterMap (fun h =>
      if h.hasError then some (Event.errorCall h.id msg) else none)

/-- Go `Logger.Fatal`: returns early below `LevelError`; otherwise formats
once, fans out to the Fatal-capable handlers, then calls `os.Exit(1)`
(modelled as a trailing `exitCall 1` event). -/
def Logger.Fatal (l : Logger) (format : String) (v : List String) : List Event :=
  if l.Level < LevelError then []
  else
    let msg := Sprintf format v
    (l.Handlers.filterMap (fun h =>
      if h.hasFatal then some (Event.fatalCall h.id msg) else none))
      ++ [Event.exitCall 1]

/-- Go `Logger.Write`: forwards the bytes, trimmed of trailing newlines, as
one Info-level message, and returns `(len(b), nil)`. The byte slice is
modelled as a `List Char`; `nil` error as `none`. -/
def Logger.Write (l : Logger) (b : List Char) : (Nat × Option String) × List Event :=
  ((b.length, none), l.Info "%s" [trimRightNewline (String.mk b)])

/-- Modelled from the spec: the concrete `DefaultHandler` lives outside the
core source (an opaque sink writing to stdout); it is modelled as a fixed
handler value implementing every capability. -/
def DefaultHandler : Handler :=
  { id := 0, hasInit := true, hasDebug := true, hasInfo := true,
    hasWarn := true, hasError := true, hasFatal := true }

/-- The process-wide registry: Go's `loggers` map (modelled as an
association list keyed by the case-folded namespace) together with the
current `defaultEnvironmentVariablePrefix`. -/
structure RegistryState where
  loggers : List (String × Logger)
  defaultEnvVarPfx : String
deriving DecidableEq

/-- Lookup in the registry map (Go `loggers[namespaceLower]`). -/
def RegistryState.find (st : RegistryState) (k : String) : Option Logger :=
  (st.loggers.find? (fun kv => kv.1 == k)).map (fun kv => kv.2)

/-- Go `Namespace`: case-folds the name; returns the existing logger when
present; otherwise constructs a fresh logger (zero value: level 0, no
handlers), seeds its level from the environment, attaches the default
handler, and inserts it under the case-folded key. -/
def Namespace (env : String → String) (st : RegistryState) (ns : String) :
    RegistryState × Logger :=
  let nsLower := toLowerStr ns
  match st.find nsLower with
  | some l => (st, l)
  | none =>
    let l0 : Logger := { Namespace := ns, Level := LevelNone, Handlers := [] }
    let l1 := (l0.SetLevel (GetLevelByString
      (getEnvVarLevel env st.defaultEnvVarPfx ns))).1
    let l2 := (l1.AddHandler DefaultHandler).1
    ({ st with loggers := st.loggers ++ [(nsLower, l2)] }, l2)

/-- Go `setEnvironmentVariablePrefix`: errors (returning the state
unchanged) when any non-root namespace exists; otherwise deletes the root
entry and stores the new prefix. The `error` result is modelled as
`Option String`. -/
def setEnvironmentVariablePfx (st : RegistryState) (p : String) :
    RegistryState × Option String :=
  if st.loggers.any (fun kv => kv.1 != "") then
    (st, some "Cannot change prefix because some logs have already been use")
  else
    ({ loggers := st.loggers.filter (fun kv => kv.1 != ""),
       defaultEnvVarPfx := p }, none)

/-- Go `SetDefaultEnvironmentVariablePrefix`: forwards errors from
`setEnvironmentVariablePfx`; on success re-creates the root-namespace
logger (Go reassigns `DefaultLogger = Namespace("")`). -/
def SetDefaultEnvironmentVariablePfx (env : String → String)
    (st : RegistryState) (p : String) : RegistryState × Option String :=
  match setEnvironmentVariablePfx st p with
  | (st2, some e) => (st2, some e)
  | (st2, none) => ((Namespace env st2 "").1, none)

/-! ### Concrete fixtures used by witnesses -/

/-- A test environment: blanket level `warn`, per-namespace override
`debug` for `payments`. -/
def envT : String → String := fun k =>
  if k = "SEVERINO_LOGGER" then "warn"
  else if k = "SEVERINO_LOGGER_PAYMENTS" then "debug"
  else ""

/-- A test handler implementing everything except the Fatal capability. -/
def hT : Handler :=
  { id := 1, hasInit := true, hasDebug := true, hasInfo := true,
    hasWarn := true, hasError := true, hasFatal := false }

/-- A second test handler, Info- and Fatal-capable only. -/
def hT2 : Handler :=
  { id := 2, hasInit := false, hasDebug := false, hasInfo := true,
    hasWarn := false, hasError := false, hasFatal := true }

/-- A test logger at `LevelInfo` with the single handler `hT`. -/
def lgT : Logger := { Namespace := "t", Level := LevelInfo, Handlers := [hT] }

/-- A test logger at `LevelNone` with the single handler `hT`. -/
def lgN : Logger := { Namespace := "t", Level := LevelNone, Handlers := [hT] }

/-- An empty registry with the default prefix. -/
def st0 : RegistryState :=
  { loggers := [], defaultEnvVarPfx := "SEVERINO_LOGGER" }

/-! ### Shared lemmas -/

/-- Capability fan-out written as `filterMap` equals mapping over the
capability-filtered handler list. -/
theorem filterMap_if_eq_map_filter (p : Handler → Bool) (g : Handler → Event) :
    ∀ hs : List Handler,
      hs.filterMap (fun h => if p h then some (g h) else none)
        = (hs.filter p).map g
  | [] => rfl
  | h :: t => by
    by_cases hp : p h <;>
      simp [List.filterMap_cons, List.filter_cons, hp,
        filterMap_if_eq_map_filter p g t]

/-- Membership in a capability fan-out, given a capable handler in the
list. -/
theorem fan_mem {hs : List Handler} {p : Handler → Bool} {g : Handler → Event}
    {h : Handler} (hmem : h ∈ hs) (hp : p h = true) :
    g h ∈ hs.filterMap (fun x => if p x then some (g x) else none) :=
  List.mem_filterMap.mpr ⟨h, hmem, by simp [hp]⟩

/-- `%s` substitution on a single argument returns the argument. -/
theorem sprintf_single (m : String) : Sprintf "%s" [m] = m := by
  cases m with
  | mk d => simp [Sprintf, sprintfCore]

/-! ### Claims -/

/-- Claim C6: `GetLevelByString` matches case-insensitively against the
five level names, returns the corresponding level, and maps every other
string (including the empty string) to `LevelInfo`; it is total, so it
never fails. -/
theorem claim_C6_level_parsing (s : String) :
    GetLevelByString s =
      (if toLowerStr s = "debug" then LevelDebug
       else if toLowerStr s = "info" then LevelInfo
       else if toLowerStr s = "warn" then LevelWarn
       else if toLowerStr s = "error" then LevelError
       else if toLowerStr s = "none" then LevelNone
       else LevelInfo)
  ∧ GetLevelByString "" = LevelInfo := by
  have hd : toLowerStr "debug" = "debug" := rfl
  have hi : toLowerStr "info" = "info" := rfl
  have hw : toLowerStr "warn" = "warn" := rfl
  have he : toLowerStr "error" = "error" := rfl
  have hn : toLowerStr "none" = "none" := rfl
  constructor
  · simp only [GetLevelByString, EqualFold, hd, hi, hw, he, hn, beq_iff_eq]
  · rfl

/-- Claim C6 witness: parsing an upper-cased known name. -/
theorem claim_C6_witness : GetLevelByString "WARN" = LevelWarn :=
  (claim_C6_level_parsing "WARN").1.trans rfl

/-- Claim C5: environment level resolution reads `<PFX>_<NS>` (namespace
uppercased, `-` and `.` mapped to `_`), falls back to `<PFX>` when that
variable is empty, uses `<PFX>` directly for the empty namespace, and
lowercases the result; a non-empty per-namespace variable takes
precedence over the blanket variable. -/
theorem claim_C5_env_resolution (env : String → String) (pfx0 ns : String) :
    (env (envKey pfx0 ns) ≠ "" →
       getEnvVarLevel env pfx0 ns = toLowerStr (env (envKey pfx0 ns)))
  ∧ (env (envKey pfx0 ns) = "" →
       getEnvVarLevel env pfx0 ns = toLowerStr (env pfx0))
  ∧ (ns = "" → getEnvVarLevel env pfx0 ns = toLowerStr (env pfx0)) := by
  by_cases hns : ns = ""
  · subst hns
    have hroot : getEnvVarLevel env pfx0 "" = toLowerStr (env pfx0) := by
      unfold getEnvVarLevel
      by_cases h0 : env pfx0 = "" <;> simp [h0]
    have hk : envKey pfx0 "" = pfx0 := by simp [envKey]
    rw [hk, hroot]
    exact ⟨fun _ => rfl, fun _ => rfl, fun _ => rfl⟩
  · unfold getEnvVarLevel envKey
    simp only [if_neg hns]
    refine ⟨fun hne => ?_, fun heq => ?_, fun h => absurd h hns⟩
    · simp [if_neg hne]
    · simp [heq]

/-- Claim C5 witness: the per-namespace variable wins for `payments`. -/
theorem claim_C5_witness :
    getEnvVarLevel envT "SEVERINO_LOGGER" "payments"
      = toLowerStr (envT (envKey "SEVERINO_LOGGER" "payments")) :=
  (claim_C5_env_resolution envT "SEVERINO_LOGGER" "payments").1 (by decide)

/-- Claim C10: `Write` returns the untrimmed input length and a nil error
for every byte payload, including when the logger's level is below Info,
in which case no handler is invoked at all. -/
theorem claim_C10_write_result (l : Logger) (b : List Char) :
    (l.Write b).1 = (b.length, none)
  ∧ (l.Level < LevelInfo → (l.Write b).2 = []) := by
  refine ⟨rfl, fun h => ?_⟩
  simp [Logger.Write, Logger.Info, h]

/-- Claim C10 witness: a suppressed logger still reports the full byte
count and nil error, with no dispatch. -/
theorem claim_C10_witness :
    (lgN.Write ("hello\n".data)).1 = (6, none)
  ∧ (lgN.Write ("hello\n".data)).2 = [] :=
  ⟨(claim_C10_write_result lgN ("hello\n".data)).1,
   (claim_C10_write_result lgN ("hello\n".data)).2 (by decide)⟩

/-- Claim C1: for each leveled call with severity S, a capable attached
handler receives the formatted message iff S ≤ the logger's level; when
the level is strictly lower than S the call produces nothing (`LevelNone`
suppresses all four calls, and the iff at `LevelDebug` enables all four,
since every severity is ≤ `LevelDebug`). -/
theorem claim_C1_level_filtering (l : Logger) (f : String) (v : List String)
    (h : Handler) (hmem : h ∈ l.Handlers) :
    (h.hasDebug = true →
      (Event.debugCall h.id (Sprintf f v) ∈ l.Debug f v ↔ LevelDebug ≤ l.Level))
  ∧ (h.hasInfo = true →
      (Event.infoCall h.id (Sprintf f v) ∈ l.Info f v ↔ LevelInfo ≤ l.Level))
  ∧ (h.hasWarn = true →
      (Event.warnCall h.id (Sprintf f v) ∈ l.Warn f v ↔ LevelWarn ≤ l.Level))
  ∧ (h.hasError = true →
      (Event.errorCall h.id (Sprintf f v) ∈ l.Error f v ↔ LevelError ≤ l.Level))
  ∧ (l.Level < LevelDebug → l.Debug f v = [])
  ∧ (l.Level < LevelInfo → l.Info f v = [])
  ∧ (l.Level < LevelWarn → l.Warn f v = [])
  ∧ (l.Level < LevelError → l.Error f v = [])
  ∧ (l.Level = LevelNone →
      l.Debug f v = [] ∧ l.Info f v = [] ∧ l.Warn f v = [] ∧ l.Error f v = []) := by
  have hdbg : h.hasDebug = true →
      (Event.debugCall h.id (Sprintf f v) ∈ l.Debug f v ↔ LevelDebug ≤ l.Level) := by
    intro hp
    unfold Logger.Debug
    by_cases hlt : l.Level < LevelDebug
    · simp only [if_pos hlt]
      simpa using Nat.not_le.mpr hlt
    · simp only [if_neg hlt]
      exact iff_of_true (fan_mem hmem hp) (Nat.not_lt.mp hlt)
  have hinf : h.hasInfo = true →
      (Event.infoCall h.id (Sprintf f v) ∈ l.Info f v ↔ LevelInfo ≤ l.Level) := by
    intro hp
    unfold Logger.Info
    by_cases hlt : l.Level < LevelInfo
    · simp only [if_pos hlt]
      simpa using Nat.not_le.mpr hlt
    · simp only [if_neg hlt]
      exact iff_of_true (fan_mem hmem hp) (Nat.not_lt.mp hlt)
  have hwrn : h.hasWarn = true →
      (Event.warnCall h.id (Sprintf f v) ∈ l.Warn f v ↔ LevelWarn ≤ l.Level) := by
    intro hp
    unfold Logger.Warn
    by_cases hlt : l.Level < LevelWarn
    · simp only [if_pos hlt]
      simpa using Nat.not_le.mpr hlt
    · simp only [if_neg hlt]
      exact iff_of_true (fan_mem hmem hp) (Nat.not_lt.mp hlt)
  have herr : h.hasError = true →
      (Event.errorCall h.id (Sprintf f v) ∈ l.Error f v ↔ LevelError ≤ l.Level) := by
    intro hp
    unfold Logger.Error
    by_cases hlt : l.Level < LevelError
    · simp only [if_pos hlt]
      simpa using Nat.not_le.mpr hlt
    · simp only [if_neg hlt]
      exact iff_of_true (fan_mem hmem hp) (Nat.not_lt.mp hlt)
  have sdbg : l.Level < LevelDebug → l.Debug f v = [] := fun hlt => by
    simp [Logger.Debug, hlt]
  have sinf : l.Level < LevelInfo → l.Info f v = [] := fun hlt => by
    simp [Logger.Info, hlt]
  have swrn : l.Level < LevelWarn → l.Warn f v = [] := fun hlt => by
    simp [Logger.Warn, hlt]
  have serr : l.Level < LevelError → l.Error f v = [] := fun hlt => by
    simp [Logger.Error, hlt]
  refine ⟨hdbg, hinf, hwrn, herr, sdbg, sinf, swrn, serr, fun h0 => ?_⟩
  have h1 : l.Level < LevelError := by
    rw [h0]; decide
  exact ⟨sdbg (lt_trans h1 (by decide)), sinf (lt_trans h1 (by decide)),
    swrn (lt_trans h1 (by decide)), serr h1⟩

/-- Claim C1 witness: an Info-capable handler at an Info-level logger
receives the message. -/
theorem claim_C1_witness :
    Event.infoCall 1 (Sprintf "x" []) ∈ lgT.Info "x" [] :=
  (((claim_C1_level_filtering lgT "x" [] hT
      (List.mem_singleton.mpr rfl)).2.1) rfl).mpr (Nat.le_refl 3)

/-- Claim C7: when the level enables the call, the message is formatted
once and offered to the handlers in attachment order; a handler's method
is invoked iff it implements the capability, others are skipped, so
attaching H1 then H2 and emitting one Info message invokes H1 then H2
with the same formatted message. -/
theorem claim_C7_fanout_order (l : Logger) (f : String) (v : List String)
    (hen : LevelInfo ≤ l.Level) :
    l.Info f v = (l.Handlers.filter (fun h => h.hasInfo)).map
        (fun h => Event.infoCall h.id (Sprintf f v))
  ∧ (∀ h1 h2 : Handler, l.Handlers = [h1, h2] →
      h1.hasInfo = true → h2.hasInfo = true →
      l.Info f v = [Event.infoCall h1.id (Sprintf f v),
                    Event.infoCall h2.id (Sprintf f v)])
  ∧ (∀ e ∈ l.Info f v, ∃ h2 ∈ l.Handlers, h2.hasInfo = true
      ∧ e = Event.infoCall h2.id (Sprintf f v))
  ∧ (LevelDebug ≤ l.Level →
      l.Debug f v = (l.Handlers.filter (fun h => h.hasDebug)).map
        (fun h => Event.debugCall h.id (Sprintf f v)))
  ∧ (LevelWarn ≤ l.Level →
      l.Warn f v = (l.Handlers.filter (fun h => h.hasWarn)).map
        (fun h => Event.warnCall h.id (Sprintf f v)))
  ∧ (LevelError ≤ l.Level →
      l.Error f v = (l.Handlers.filter (fun h => h.hasError)).map
        (fun h => Event.errorCall h.id (Sprintf f v))) := by
  have hinfo : l.Info f v = (l.Handlers.filter (fun h => h.hasInfo)).map
      (fun h => Event.infoCall h.id (Sprintf f v)) := by
    unfold Logger.Info
    rw [if_neg (Nat.not_lt.mpr hen)]
    exact filterMap_if_eq_map_filter _ _ l.Handlers
  refine ⟨hinfo, fun h1 h2 hhs hp1 hp2 => ?_, fun e he => ?_, fun hd => ?_,
    fun hw => ?_, fun her => ?_⟩
  · rw [hinfo, hhs]
    simp [List.filter_cons, hp1, hp2]
  · rw [hinfo] at he
    rcases List.mem_map.mp he with ⟨h2, hh2, rfl⟩
    exact ⟨h2, List.mem_of_mem_filter hh2, List.of_mem_filter hh2, rfl⟩
  · unfold Logger.Debug
    rw [if_neg (Nat.not_lt.mpr hd)]
    exact filterMap_if_eq_map_filter _ _ l.Handlers
  · unfold Logger.Warn
    rw [if_neg (Nat.not_lt.mpr hw)]
    exact filterMap_if_eq_map_filter _ _ l.Handlers
  · unfold Logger.Error
    rw [if_neg (Nat.not_lt.mpr her)]
    exact filterMap_if_eq_map_filter _ _ l.Handlers

/-- Claim C7 witness: two Info-capable handlers fire in attachment order
with the same formatted message. -/
theorem claim_C7_witness :
    Logger.Info { Namespace := "t", Level := LevelInfo, Handlers := [hT, hT2] }
        "m" []
      = [Event.infoCall 1 (Sprintf "m" []), Event.infoCall 2 (Sprintf "m" [])] :=
  (claim_C7_fanout_order
    { Namespace := "t", Level := LevelInfo, Handlers := [hT, hT2] }
    "m" [] (Nat.le_refl 3)).2.1 hT hT2 rfl rfl rfl

/-- Claim C8: `AddHandler` appends the handler and immediately invokes
Init (with the current namespace and level) exactly when the handler
implements it; `SetLevel` stores the new level and re-invokes Init with
the new level on exactly the attached Init-capable handlers. -/
theorem claim_C8_init_invocation (l : Logger) (h : Handler) (lv : Severino.Level) :
    (l.AddHandler h).1.Handlers = l.Handlers ++ [h]
  ∧ (l.AddHandler h).1.Level = l.Level
  ∧ (l.AddHandler h).1.Namespace = l.Namespace
  ∧ (l.AddHandler h).2 =
      (if h.hasInit then [Event.initCall h.id l.Namespace l.Level] else [])
  ∧ (l.SetLevel lv).1.Level = lv
  ∧ (l.SetLevel lv).1.Handlers = l.Handlers
  ∧ (l.SetLevel lv).1.Namespace = l.Namespace
  ∧ (∀ i ns lv2, Event.initCall i ns lv2 ∈ (l.SetLevel lv).2 ↔
      (ns = l.Namespace ∧ lv2 = lv ∧ ∃ hh ∈ l.Handlers, hh.id = i ∧ hh.hasInit = true))
  ∧ (∀ e ∈ (l.SetLevel lv).2, ∃ i, e = Event.initCall i l.Namespace lv) := by
  refine ⟨rfl, rfl, rfl, rfl, rfl, rfl, rfl, fun i ns lv2 => ?_, fun e he => ?_⟩
  · unfold Logger.SetLevel
    simp only [List.mem_filterMap]
    constructor
    · rintro ⟨hh, hhmem, hsome⟩
      by_cases hp : hh.hasInit = true
      · rw [if_pos hp] at hsome
        obtain ⟨h1, h2, h3⟩ := Event.initCall.inj (Option.some.inj hsome)
        exact ⟨h2.symm, h3.symm, hh, hhmem, h1, hp⟩
      · rw [if_neg hp] at hsome
        exact absurd hsome (Option.noConfusion)
    · rintro ⟨rfl, rfl, hh, hhmem, hid, hp⟩
      exact ⟨hh, hhmem, by simp [hp, hid]⟩
  · unfold Logger.SetLevel at he
    simp only [List.mem_filterMap] at he
    rcases he with ⟨hh, _, hsome⟩
    by_cases hp : hh.hasInit = true
    · rw [if_pos hp] at hsome
      exact ⟨hh.id, (Option.some.inj hsome).symm⟩
    · rw [if_neg hp] at hsome
      exact absurd hsome (Option.noConfusion)

/-- Claim C8 witness: adding an Init-capable handler fires Init once with
the current namespace and level, and `SetLevel` re-fires it with the new
level. -/
theorem claim_C8_witness :
    (lgT.AddHandler hT).2 = [Event.initCall 1 "t" LevelInfo]
  ∧ (lgT.SetLevel LevelWarn).1.Level = LevelWarn
  ∧ (Event.initCall 1 "t" LevelWarn ∈ (lgT.SetLevel LevelWarn).2) :=
  ⟨(claim_C8_init_invocation lgT hT LevelWarn).2.2.2.1.trans rfl,
   (claim_C8_init_invocation lgT hT LevelWarn).2.2.2.2.1,
   ((claim_C8_init_invocation lgT hT LevelWarn).2.2.2.2.2.2.2.1 1 "t" LevelWarn).mpr
     ⟨rfl, rfl, hT, List.mem_singleton.mpr rfl, rfl, rfl⟩⟩

/-- Claim C2 counterexample: at a logger whose level is below Error
(`LevelNone`), `Fatal` returns before reaching `os.Exit`, so the process
is NOT terminated — the call is a complete no-op, refuting the claimed
unconditional termination. -/
theorem claim_C2_counterexample :
    Logger.Fatal { Namespace := "", Level := LevelNone, Handlers := [] } "boom" [] = []
  ∧ Event.exitCall 1 ∉
      Logger.Fatal { Namespace := "", Level := LevelNone, Handlers := [] } "boom" [] :=
  ⟨rfl, List.not_mem_nil _⟩

/-- Claim C2 (amended): `Fatal` is gated entirely at the Error threshold:
below it the call is a complete no-op (no dispatch AND no termination);
at or above it, it dispatches to every Fatal-capable handler in order and
then terminates with a non-zero status, even when no handler implements
Fatal. -/
theorem claim_C2_fatal_gate (l : Logger) (f : String) (v : List String) :
    (l.Level < LevelError → l.Fatal f v = [])
  ∧ (LevelError ≤ l.Level →
      l.Fatal f v =
        (l.Handlers.filter (fun h => h.hasFatal)).map
          (fun h => Event.fatalCall h.id (Sprintf f v)) ++ [Event.exitCall 1]
    ∧ Event.exitCall 1 ∈ l.Fatal f v
    ∧ l.Fatal f v ≠ []) := by
  refine ⟨fun hlt => by simp [Logger.Fatal, hlt], fun hge => ?_⟩
  have heq : l.Fatal f v =
      (l.Handlers.filter (fun h => h.hasFatal)).map
        (fun h => Event.fatalCall h.id (Sprintf f v)) ++ [Event.exitCall 1] := by
    unfold Logger.Fatal
    rw [if_neg (Nat.not_lt.mpr hge)]
    exact congrArg (fun t => t ++ [Event.exitCall 1])
      (filterMap_if_eq_map_filter _ _ l.Handlers)
  refine ⟨heq, ?_, ?_⟩
  · rw [heq]
    exact List.mem_append_right _ (List.mem_singleton.mpr rfl)
  · rw [heq]
    intro hnil
    exact absurd (List.append_eq_nil.mp hnil).2 (by simp)

/-- Claim C2 witness: a logger at Error level with no Fatal-capable
handler still produces the termination event. -/
theorem claim_C2_witness :
    Event.exitCall 1 ∈
      Logger.Fatal { Namespace := "t", Level := LevelError, Handlers := [hT] } "x" [] :=
  ((claim_C2_fatal_gate
    { Namespace := "t", Level := LevelError, Handlers := [hT] }
    "x" []).2 (Nat.le_refl 1)).2.1

/-- Claim C9 counterexample: on the payload `"hi\n\n"` the code strips
BOTH trailing newlines and dispatches `"hi"`, not `"hi\n"` as the
single-newline-stripping claim requires. -/
theorem claim_C9_counterexample :
    (lgT.Write ("hi\n\n".data)).2 = [Event.infoCall 1 "hi"]
  ∧ (lgT.Write ("hi\n\n".data)).2 ≠ [Event.infoCall 1 "hi\n"] := by
  have h1 : (lgT.Write ("hi\n\n".data)).2 = [Event.infoCall 1 "hi"] := rfl
  refine ⟨h1, ?_⟩
  rw [h1]
  intro hcontra
  have : ("hi" : String) = "hi\n" := by
    have := List.cons.inj hcontra
    exact Event.infoCall.inj this.1 |>.2
  exact absurd this (by decide)

/-- Claim C9 (amended): `Write(b)` strips ALL trailing newlines from `b`
and forwards the result as one Info-level message, so each Info-capable
handler receives exactly one record carrying the trimmed payload (for
`"hello\n"` that is `"hello"`, with no extra empty record). -/
theorem claim_C9_write_adapter (l : Logger) (b : List Char) :
    (l.Write b).2 = l.Info "%s" [trimRightNewline (String.mk b)]
  ∧ (LevelInfo ≤ l.Level →
      (l.Write b).2 =
        (l.Handlers.filter (fun h => h.hasInfo)).map
          (fun h => Event.infoCall h.id (trimRightNewline (String.mk b)))) := by
  refine ⟨rfl, fun hen => ?_⟩
  show l.Info "%s" [trimRightNewline (String.mk b)] = _
  unfold Logger.Info
  rw [if_neg (Nat.not_lt.mpr hen), sprintf_single]
  exact filterMap_if_eq_map_filter _ _ l.Handlers

/-- Claim C9 witness: writing `"hello\n"` produces exactly one Info
dispatch carrying `"hello"`. -/
theorem claim_C9_witness :
    (lgT.Write ("hello\n".data)).2 = [Event.infoCall 1 "hello"] :=
  ((claim_C9_write_adapter lgT ("hello\n".data)).2 (Nat.le_refl 3)).trans rfl

/-- The logger `Namespace` constructs on a registry miss: zero value,
level seeded from the environment, then the default handler attached. -/
def newLogger (env : String → String) (st : RegistryState) (ns : String) : Logger :=
  ((({ Namespace := ns, Level := LevelNone, Handlers := [] } : Logger).SetLevel
      (GetLevelByString (getEnvVarLevel env st.defaultEnvVarPfx ns))).1.AddHandler
    DefaultHandler).1

/-- On a registry hit, `Namespace` returns the existing logger and leaves
the registry unchanged. -/
theorem Namespace_found (env : String → String) {st : RegistryState}
    {ns : String} {l : Logger} (h : st.find (toLowerStr ns) = some l) :
    Namespace env st ns = (st, l) := by
  unfold Namespace
  simp only [h]

/-- On a registry miss, `Namespace` inserts and returns the newly
constructed logger. -/
theorem Namespace_new (env : String → String) {st : RegistryState}
    {ns : String} (h : st.find (toLowerStr ns) = none) :
    Namespace env st ns =
      ({ st with loggers := st.loggers ++ [(toLowerStr ns, newLogger env st ns)] },
       newLogger env st ns) := by
  unfold Namespace newLogger
  simp only [h]

/-- Claim C3: for names equal up to case folding, the second `Namespace`
call returns the same logger value as the first and leaves the registry
untouched, so no second logger is constructed for that case-folded name. -/
theorem claim_C3_idempotent_namespace (env : String → String) (st : RegistryState)
    (n1 n2 : String) (hfold : toLowerStr n1 = toLowerStr n2) :
    (Namespace env (Namespace env st n1).1 n2).2 = (Namespace env st n1).2
  ∧ (Namespace env (Namespace env st n1).1 n2).1 = (Namespace env st n1).1 := by
  cases hfind : st.find (toLowerStr n1) with
  | some l =>
    have h1 : Namespace env st n1 = (st, l) := Namespace_found env hfind
    have hf2 : st.find (toLowerStr n2) = some l := hfold ▸ hfind
    have h2 : Namespace env st n2 = (st, l) := Namespace_found env hf2
    simp [h1, h2]
  | none =>
    have h1 := Namespace_new env hfind
    have hfindN : st.loggers.find? (fun kv => kv.1 == toLowerStr n1) = none := by
      unfold RegistryState.find at hfind
      simpa using hfind
    have hf2 : RegistryState.find
        { st with loggers := st.loggers ++ [(toLowerStr n1, newLogger env st n1)] }
        (toLowerStr n2) = some (newLogger env st n1) := by
      unfold RegistryState.find
      rw [← hfold]
      simp [List.find?_append, hfindN]
    have h2 := Namespace_found env hf2
    simp [h1, h2]

/-- Claim C3 witness: `"SVC-A"` then `"svc-a"` yield the same logger and
the same registry. -/
theorem claim_C3_witness :
    (Namespace envT (Namespace envT st0 "SVC-A").1 "svc-a").2
      = (Namespace envT st0 "SVC-A").2
  ∧ (Namespace envT (Namespace envT st0 "SVC-A").1 "svc-a").1
      = (Namespace envT st0 "SVC-A").1 :=
  claim_C3_idempotent_namespace envT st0 "SVC-A" "svc-a" rfl

/-- Claim C4: the prefix change errors iff a non-root (non-empty-key)
namespace exists; in the error case the registry (and every logger in it)
and the prefix are unchanged, and `SetDefaultEnvironmentVariablePfx`
propagates the error without mutating anything; on success the root entry
is removed and the prefix updated, so the next root resolution re-reads
the environment under the new prefix. -/
theorem claim_C4_pfx_guard (env : String → String) (st : RegistryState) (p : String) :
    ((setEnvironmentVariablePfx st p).2.isSome = true ↔ ∃ kv ∈ st.loggers, kv.1 ≠ "")
  ∧ ((setEnvironmentVariablePfx st p).2.isSome = true →
      (setEnvironmentVariablePfx st p).1 = st
    ∧ SetDefaultEnvironmentVariablePfx env st p = (st, (setEnvironmentVariablePfx st p).2))
  ∧ ((setEnvironmentVariablePfx st p).2 = none →
      (setEnvironmentVariablePfx st p).1.defaultEnvVarPfx = p
    ∧ (setEnvironmentVariablePfx st p).1.find "" = none
    ∧ (Namespace env (setEnvironmentVariablePfx st p).1 "").2.Level =
        GetLevelByString (getEnvVarLevel env p "")) := by
  by_cases hany : st.loggers.any (fun kv => kv.1 != "") = true
  · have heq : setEnvironmentVariablePfx st p =
        (st, some "Cannot change prefix because some logs have already been use") := by
      unfold setEnvironmentVariablePfx
      rw [if_pos hany]
    refine ⟨?_, fun _ => ⟨by simp [heq], ?_⟩, fun hnone => ?_⟩
    · simp only [heq, Option.isSome_some, true_iff]
      simpa [bne_iff_ne] using hany
    · unfold SetDefaultEnvironmentVariablePfx
      rw [heq]
    · rw [heq] at hnone
      exact absurd hnone (by simp)
  · have heq : setEnvironmentVariablePfx st p =
        ({ loggers := st.loggers.filter (fun kv => kv.1 != ""),
           defaultEnvVarPfx := p }, none) := by
      unfold setEnvironmentVariablePfx
      rw [if_neg hany]
    have hfnone : RegistryState.find
        { loggers := st.loggers.filter (fun kv => kv.1 != ""),
          defaultEnvVarPfx := p } (toLowerStr "") = none := by
      unfold RegistryState.find
      rw [Option.map_eq_none', List.find?_eq_none]
      intro kv hkv
      have h2 := List.of_mem_filter hkv
      simpa [bne_iff_ne] using h2
    refine ⟨?_, fun hsome => ?_, fun _ => ?_⟩
    · simp only [heq, Option.isSome_none, Bool.false_eq_true, false_iff]
      rintro ⟨kv, hkv, hne⟩
      exact hany (List.any_eq_true.mpr ⟨kv, hkv, bne_iff_ne.mpr hne⟩)
    · rw [heq] at hsome
      exact absurd hsome (by simp)
    · refine ⟨by rw [heq], by rw [heq]; exact hfnone, ?_⟩
      have hnew := Namespace_new env hfnone
      rw [heq]
      simp only [hnew]
      rfl

/-- Claim C4 witness: after creating namespace `"svc-a"`, the prefix
change reports an error and leaves the registry unchanged. -/
theorem claim_C4_witness :
    (setEnvironmentVariablePfx (Namespace envT st0 "svc-a").1 "P").1
      = (Namespace envT st0 "svc-a").1 :=
  ((claim_C4_pfx_guard envT (Namespace envT st0 "svc-a").1 "P").2.1 rfl).1

end Severino
